import Mathlib

set_option autoImplicit false

/-
  Shallow embedding of the asynchronous Qdrant vector-database client of
  DocsIngestionApi (src/src/client/implementations.py, class QdrantClientAsync)
  together with the entry schema QdrantValidator
  (src/src/models/validation_schemas.py).

  JSON values are modelled by an inductive type with numbers as rationals.
  The aiohttp session is modelled as an oracle mapping a request to either a
  raised transport exception or an HttpResponse; a response carries its HTTP
  status code and the outcome of calling response.json() on it.  Python
  exceptions are values of the type Err; fallible code returns Except Err.
-/

namespace DocsIngestion

/-- JSON values exchanged with the Qdrant server; numbers are rationals. -/
inductive Json where
  | null : Json
  | bool (b : Bool) : Json
  | num (q : Rat) : Json
  | str (s : String) : Json
  | arr (elems : List Json) : Json
  | obj (fields : List (String × Json)) : Json

/-- A Python dict with string keys, as passed around by the client. -/
abbrev Item := List (String × Json)

/-- First-match lookup in a dict, as Python dict indexing on unique keys. -/
def lookupField : List (String × Json) → String → Option Json
  | [], _ => none
  | (k, v) :: rest, key => if k = key then some v else lookupField rest key

/-- Python exceptions observable at the client boundary. -/
inductive Err where
  | validationError : Err
  | clientResponseError (status : Nat) : Err
  | contentTypeError : Err
  | connectionError : Err
  | keyError (key : String) : Err
  | typeError : Err
  | attributeError : Err
  | indexError : Err
  | valueError : Err
  | retryError (last : Err) : Err
deriving DecidableEq

/-- Python subscription `j[key]`: KeyError on a missing key, TypeError when
the value is not a dict. -/
def pySubscript (j : Json) (key : String) : Except Err Json :=
  match j with
  | Json.obj fields =>
    match lookupField fields key with
    | some v => Except.ok v
    | none => Except.error (Err.keyError key)
  | _ => Except.error Err.typeError

/-- Python `j.get(key, None)`: AttributeError when `j` is not a dict. -/
def pyDictGet (j : Json) (key : String) : Except Err (Option Json) :=
  match j with
  | Json.obj fields => Except.ok (lookupField fields key)
  | _ => Except.error Err.attributeError

/-- Python truthiness `bool(v)` of a JSON value. -/
def pyTruthy : Json → Bool
  | Json.null => false
  | Json.bool b => b
  | Json.num q => decide (q ≠ 0)
  | Json.str s => !(s == "")
  | Json.arr elems => !elems.isEmpty
  | Json.obj fields => !fields.isEmpty

/-- Python `bool(d.get(key, None))`: None (absent key) is falsy. -/
def pyTruthyOpt : Option Json → Bool
  | none => false
  | some v => pyTruthy v

/-- Python `s.startswith(pre)`: the characters of `pre` are a prefix of the
characters of `s`. -/
def pyStartsWith (s pre : String) : Bool := pre.data.isPrefixOf s.data

/-- The check `response.get('status', None) != "ok"` is False exactly when the
value is the string "ok". -/
def statusIsOk : Option Json → Bool
  | some (Json.str s) => s == "ok"
  | _ => false

/-! ### The QdrantValidator pydantic schema -/

def isStr : Json → Bool
  | Json.str _ => true
  | _ => false

def isNum : Json → Bool
  | Json.num _ => true
  | _ => false

/-- A `List[float]` value: an array of numbers. -/
def isFloatList : Json → Bool
  | Json.arr elems => elems.all isNum
  | _ => false

/-- A `Dict[str, List[float]]` value: a dict whose values are float lists. -/
def isNamedVectorDict : Json → Bool
  | Json.obj fields => fields.all (fun kv => isFloatList kv.2)
  | _ => false

/-- A `Dict[str, Any]` value. -/
def isDict : Json → Bool
  | Json.obj _ => true
  | _ => false

/-- Validation performed by `QdrantValidator(**item)`
(src/models/validation_schemas.py): required fields `id : str`,
`vector : Dict[str, List[float]]`, `payload : Dict[str, Any]`;
a missing or ill-typed field raises pydantic.ValidationError. -/
def qdrantValidatorOk (item : Item) : Bool :=
  (match lookupField item "id" with
   | some v => isStr v
   | none => false) &&
  (match lookupField item "vector" with
   | some v => isNamedVectorDict v
   | none => false) &&
  (match lookupField item "payload" with
   | some v => isDict v
   | none => false)

/-- Length of the dense vector of an entry, when present. -/
def denseVectorLength (item : Item) : Option Nat :=
  match lookupField item "vector" with
  | some (Json.obj fields) =>
    match lookupField fields "dense" with
    | some (Json.arr elems) => some elems.length
    | _ => none
  | _ => none

/-! ### Client configuration and the HTTP transport oracle -/

/-- The configuration fields stored by `QdrantClientAsync.__init__`.
The pydantic data model class is embedded as its validation predicate. -/
structure QdrantClientAsync where
  data_model : Item → Bool
  collection_name : String
  base_url : String
  headers : List (String × String)
  dense_size : Option Nat
  sample_for_verification_size : Option Nat

/-- An HTTP request issued through the aiohttp session. -/
structure HttpRequest where
  method : String
  url : String
  headers : List (String × String)
  body : Option Json

/-- An HTTP response: its status code and the outcome of `response.json()`
(which raises aiohttp.ContentTypeError on a non-JSON body). -/
structure HttpResponse where
  status : Nat
  jsonBody : Except Err Json

/-- `response.raise_for_status()`: aiohttp raises ClientResponseError exactly
when the status code is 400 or above. -/
def raiseForStatus (r : HttpResponse) : Except Err Unit :=
  if 400 ≤ r.status then Except.error (Err.clientResponseError r.status) else Except.ok ()

/-- `QdrantClientAsync._verify_points`: runs the pydantic data model over the
item (re-raising ValidationError) and returns the item itself unchanged. -/
def _verify_points (c : QdrantClientAsync) (item : Item) : Except Err Item :=
  if c.data_model item then Except.ok item else Except.error Err.validationError

/-! ### add_points_with_retry: tenacity retry with exponential backoff -/

/-- tenacity `wait_exponential(multiplier, min, max, exp_base)` evaluated at a
1-based attempt number: `max(max(0, min), min(multiplier * base^(n-1), max))`. -/
def wait_exponential (multiplier minW maxW expBase attemptNumber : Nat) : Nat :=
  max (max 0 minW) (min (multiplier * expBase ^ (attemptNumber - 1)) maxW)

/-- Trace of one `add_points_with_retry` invocation: the final outcome, the
number of underlying HTTP calls made, and the sleeps between attempts. -/
structure RetryTrace where
  result : Except Err Json
  calls : Nat
  waits : List Nat

/-- The tenacity retry loop with `wait_exponential(multiplier=1, min=1, max=10)`:
`call n` is the outcome of the n-th underlying attempt (1-based).  A successful
attempt returns immediately; a failed attempt sleeps and retries while retries
remain, and once the stop condition is reached tenacity raises RetryError
wrapping the last attempt's exception. -/
def tenacityRetry (call : Nat → Except Err Json) : Nat → Nat → RetryTrace
  | attemptNumber, remaining =>
    match call attemptNumber with
    | Except.ok j => { result := Except.ok j, calls := 1, waits := [] }
    | Except.error e =>
      match remaining with
      | 0 => { result := Except.error (Err.retryError e), calls := 1, waits := [] }
      | r + 1 =>
        let w := wait_exponential 1 1 10 2 attemptNumber
        let rest := tenacityRetry call (attemptNumber + 1) r
        { result := rest.result, calls := rest.calls + 1, waits := w :: rest.waits }

/-- `QdrantClientAsync.add_points_with_retry` under
`@retry(stop=stop_after_attempt(3), wait=wait_exponential(multiplier=1, min=1, max=10))`:
at most 3 attempts total (the first call plus 2 retries).  Each attempt is one
`session.put` of the points payload followed by `response.json()`, collapsed
into the oracle `call`. -/
def add_points_with_retry (call : Nat → Except Err Json) : RetryTrace :=
  tenacityRetry call 1 2

/-- C3: addPointsWithRetry makes at most 3 attempts, with exponential backoff
starting at 1 time-unit and capped at 10 between attempts (waits 1 then 2 here),
retries on any exception of an attempt, stops at the first success, and in
particular a first-attempt failure followed by a second-attempt success returns
that success after exactly 2 underlying calls. -/
theorem add_points_with_retry_policy (call : Nat → Except Err Json) :
    (add_points_with_retry call).calls ≤ 3
    ∧ (add_points_with_retry call).waits =
        [wait_exponential 1 1 10 2 1, wait_exponential 1 1 10 2 2].take
          ((add_points_with_retry call).calls - 1)
    ∧ wait_exponential 1 1 10 2 1 = 1
    ∧ (∀ w ∈ (add_points_with_retry call).waits, 1 ≤ w ∧ w ≤ 10)
    ∧ (∀ j, call 1 = Except.ok j →
        (add_points_with_retry call).result = Except.ok j
        ∧ (add_points_with_retry call).calls = 1)
    ∧ (∀ e j, call 1 = Except.error e → call 2 = Except.ok j →
        (add_points_with_retry call).result = Except.ok j
        ∧ (add_points_with_retry call).calls = 2) := by
  have hw1 : wait_exponential 1 1 10 2 1 = 1 := by decide
  have hw2 : wait_exponential 1 1 10 2 2 = 2 := by decide
  rcases h1 : call 1 with e1 | j1
  · rcases h2 : call 2 with e2 | j2
    · rcases h3 : call 3 with e3 | j3
      · simp [add_points_with_retry, tenacityRetry, h1, h2, h3, hw1, hw2]
      · simp [add_points_with_retry, tenacityRetry, h1, h2, h3, hw1, hw2]
    · simp [add_points_with_retry, tenacityRetry, h1, h2, hw1, hw2]
  · simp [add_points_with_retry, tenacityRetry, h1, hw1, hw2]

/-- C3 witness: a transport that fails on attempt 1 and succeeds on attempt 2
returns the attempt-2 response after exactly 2 underlying calls. -/
theorem add_points_with_retry_policy_witness :
    (add_points_with_retry
        (fun n => if n = 1 then Except.error Err.connectionError
                  else Except.ok (Json.str "done"))).result
      = Except.ok (Json.str "done")
    ∧ (add_points_with_retry
        (fun n => if n = 1 then Except.error Err.connectionError
                  else Except.ok (Json.str "done"))).calls = 2 :=
  (add_points_with_retry_policy
      (fun n => if n = 1 then Except.error Err.connectionError
                else Except.ok (Json.str "done"))).2.2.2.2.2
    Err.connectionError (Json.str "done") (by simp) (by simp)

/-- Conftest client configuration (test/test_qdrant_client/conftest.py), with a
dense size matching the 3-dimensional sample vectors used in the tests. -/
def testClient : QdrantClientAsync :=
  { data_model := qdrantValidatorOk
    collection_name := "testing_qdrant_client"
    base_url := "http://localhost:6333"
    headers := [("Content-Type", "application/json"), ("api-key", "your-api-key")]
    dense_size := some 3
    sample_for_verification_size := some 5 }

/-- A well-formed entry in the shape the upload tests use. -/
def sampleEntry : Item :=
  [("id", Json.str "doc1"),
   ("vector", Json.obj [("dense", Json.arr [Json.num 1, Json.num 2, Json.num 3])]),
   ("payload", Json.obj [("content", Json.str "doc 1")])]

/-- C6: verifyEntry (`_verify_points` with the QdrantValidator data model) is a
pure validation: a valid entry whose three required fields conform and whose
dense vector length equals the client's dense size is returned unchanged, and
an entry missing `id`, `vector` or `payload` raises ValidationError. -/
theorem verify_points_pure_validation (c : QdrantClientAsync)
    (hdm : c.data_model = qdrantValidatorOk) :
    (∀ (item : Item) (n : Nat), qdrantValidatorOk item = true →
        denseVectorLength item = some n → c.dense_size = some n →
        _verify_points c item = Except.ok item)
    ∧ (∀ item : Item,
        lookupField item "id" = none ∨ lookupField item "vector" = none ∨
          lookupField item "payload" = none →
        _verify_points c item = Except.error Err.validationError) := by
  constructor
  · intro item n hv _ _
    simp [_verify_points, hdm, hv]
  · intro item hmiss
    have hv : qdrantValidatorOk item = false := by
      rcases hmiss with h | h | h <;> simp [qdrantValidatorOk, h]
    simp [_verify_points, hdm, hv]

/-- C6 witness: the sample entry validates to itself unchanged, and an entry
missing `id` and `payload` raises ValidationError. -/
theorem verify_points_pure_validation_witness :
    _verify_points testClient sampleEntry = Except.ok sampleEntry
    ∧ _verify_points testClient [("vector", Json.obj [])]
        = Except.error Err.validationError :=
  ⟨(verify_points_pure_validation testClient rfl).1 sampleEntry 3
      (by decide) (by decide) rfl,
   (verify_points_pure_validation testClient rfl).2 [("vector", Json.obj [])]
      (Or.inl rfl)⟩

/-! ### Collection lifecycle: create_collection and get_collection_info -/

/-- JSON encoding of an `Optional[int]` configuration value. -/
def optNatJson : Option Nat → Json
  | none => Json.null
  | some n => Json.num n

/-- The PUT request built by `create_collection`. -/
def createCollectionRequest (c : QdrantClientAsync) : HttpRequest :=
  { method := "PUT"
    url := c.base_url ++ "/collections/" ++ c.collection_name
    headers := c.headers
    body := some (Json.obj [("vectors",
      Json.obj [("size", optNatJson c.dense_size), ("distance", Json.str "Cosine")])]) }

structure CreateResult where
  result : Except Err Unit
  warned : Bool
  requests : List HttpRequest
  client : QdrantClientAsync

/-- The body of `create_collection` once the PUT returned a response:
`raise_for_status()`, `response.json()`, then the check
`response_data["status"].startswith("Wrong input: Collection")` which only
logs a warning.  Returns whether the warning was logged. -/
def createCollectionCheck (resp : HttpResponse) : Except Err Bool :=
  match raiseForStatus resp with
  | Except.error e => Except.error e
  | Except.ok _ =>
    match resp.jsonBody with
    | Except.error e => Except.error e
    | Except.ok data =>
      match pySubscript data "status" with
      | Except.error e => Except.error e
      | Except.ok (Json.str s) => Except.ok (pyStartsWith s "Wrong input: Collection")
      | Except.ok _ => Except.error Err.attributeError

/-- `QdrantClientAsync.create_collection`. -/
def create_collection (c : QdrantClientAsync)
    (put : HttpRequest → Except Err HttpResponse) : CreateResult :=
  let req := createCollectionRequest c
  match put req with
  | Except.error e => { result := Except.error e, warned := false, requests := [req], client := c }
  | Except.ok resp =>
    match createCollectionCheck resp with
    | Except.error e => { result := Except.error e, warned := false, requests := [req], client := c }
    | Except.ok w => { result := Except.ok (), warned := w, requests := [req], client := c }

structure InfoResult where
  result : Except Err Json
  requests : List HttpRequest
  client : QdrantClientAsync

/-- The GET request built by `get_collection_info`. -/
def getCollectionRequest (c : QdrantClientAsync) : HttpRequest :=
  { method := "GET"
    url := c.base_url ++ "/collections/" ++ c.collection_name
    headers := c.headers
    body := none }

/-- `QdrantClientAsync.get_collection_info`: GET, `raise_for_status()`,
`response.json()`, return the parsed body. -/
def get_collection_info (c : QdrantClientAsync)
    (get : HttpRequest → Except Err HttpResponse) : InfoResult :=
  let req := getCollectionRequest c
  match get req with
  | Except.error e => { result := Except.error e, requests := [req], client := c }
  | Except.ok resp =>
    match raiseForStatus resp with
    | Except.error e => { result := Except.error e, requests := [req], client := c }
    | Except.ok _ =>
      match resp.jsonBody with
      | Except.error e => { result := Except.error e, requests := [req], client := c }
      | Except.ok j => { result := Except.ok j, requests := [req], client := c }

/-! ### verify_upload -/

/-- The POST scroll request built by `verify_upload`. -/
def scrollRequest (c : QdrantClientAsync) : HttpRequest :=
  { method := "POST"
    url := c.base_url ++ "/collections/" ++ c.collection_name ++ "/points/scroll"
    headers := c.headers
    body := some (Json.obj [("limit", optNatJson c.sample_for_verification_size),
      ("with_vectors", Json.bool false), ("with_payload", Json.bool true)]) }

structure VerifyUploadResult where
  result : Except Err Unit
  requests : List HttpRequest
  client : QdrantClientAsync

/-- `QdrantClientAsync.verify_upload`: fetch the collection info, read
`collection_info.get('result', {}).get('points_count', 0)` for logging, then
POST the scroll sample and parse its JSON body; returns None. -/
def verify_upload (c : QdrantClientAsync)
    (get : HttpRequest → Except Err HttpResponse)
    (post : HttpRequest → Except Err HttpResponse) : VerifyUploadResult :=
  let info := get_collection_info c get
  match info.result with
  | Except.error e => { result := Except.error e, requests := info.requests, client := c }
  | Except.ok data =>
    match pyDictGet data "result" with
    | Except.error e => { result := Except.error e, requests := info.requests, client := c }
    | Except.ok rOpt =>
      match pyDictGet (rOpt.getD (Json.obj [])) "points_count" with
      | Except.error e => { result := Except.error e, requests := info.requests, client := c }
      | Except.ok _ =>
        let req := scrollRequest c
        match post req with
        | Except.error e =>
          { result := Except.error e, requests := info.requests ++ [req], client := c }
        | Except.ok resp =>
          match resp.jsonBody with
          | Except.error e =>
            { result := Except.error e, requests := info.requests ++ [req], client := c }
          | Except.ok _ =>
            { result := Except.ok (), requests := info.requests ++ [req], client := c }

/-! ### dense_search -/

/-- The POST request built by `dense_search`. -/
def denseSearchRequest (c : QdrantClientAsync) (dense_vector : List Rat) (top_k : Nat) :
    HttpRequest :=
  { method := "POST"
    url := c.base_url ++ "/collections/" ++ c.collection_name ++ "/points/search"
    headers := c.headers
    body := some (Json.obj [("vector",
        Json.obj [("name", Json.str "dense"),
                  ("vector", Json.arr (dense_vector.map Json.num))]),
      ("limit", Json.num (top_k : Rat)), ("with_payload", Json.bool true)]) }

structure DenseSearchResult where
  result : Except Err Json
  requests : List HttpRequest
  client : QdrantClientAsync

/-- `QdrantClientAsync.dense_search`: a single POST followed by
`response.json()`; the source contains no retry wrapper and no
`raise_for_status` call. -/
def dense_search (c : QdrantClientAsync)
    (post : HttpRequest → Except Err HttpResponse)
    (dense_vector : List Rat) (top_k : Nat) : DenseSearchResult :=
  let req := denseSearchRequest c dense_vector top_k
  match post req with
  | Except.error e => { result := Except.error e, requests := [req], client := c }
  | Except.ok resp =>
    match resp.jsonBody with
    | Except.error e => { result := Except.error e, requests := [req], client := c }
    | Except.ok j => { result := Except.ok j, requests := [req], client := c }

/-! ### batch_queries -/

/-- One element of the `searches` payload list. -/
def searchEntry (top_k : Nat) (v : Json) : Json :=
  Json.obj [("vector", Json.obj [("name", Json.str "dense"), ("vector", v)]),
    ("limit", Json.num (top_k : Rat)), ("with_payload", Json.bool true)]

/-- The list comprehension building the `searches` payload: `item["vector"]`
raises KeyError at the first query dict lacking a `vector` key. -/
def buildSearches (top_k : Nat) : List Item → Except Err (List Json)
  | [] => Except.ok []
  | item :: rest =>
    match lookupField item "vector" with
    | none => Except.error (Err.keyError "vector")
    | some v =>
      match buildSearches top_k rest with
      | Except.error e => Except.error e
      | Except.ok searches => Except.ok (searchEntry top_k v :: searches)

/-- One output dict of `batch_queries`: the optional `query` label of the
input paired with the server's result sublist. -/
structure BatchQueryItemResult where
  query : Option Json
  results : Json

structure BatchQueriesResult where
  result : Except Err (List BatchQueryItemResult)
  requests : List HttpRequest
  client : QdrantClientAsync

/-- The final comprehension of `batch_queries`:
`zip(query_vectors, results["result"])` mapped to
`{"query": item.get("query", None), "results": result}`. -/
def batchZip (qvs : List Item) (rs : List Json) : List BatchQueryItemResult :=
  List.zipWith (fun item r => { query := lookupField item "query", results := r }) qvs rs

/-- `QdrantClientAsync.batch_queries`: build the searches payload, POST it,
parse the JSON body, subscript `results["result"]` and zip it back with the
input query dicts in order. -/
def batch_queries (c : QdrantClientAsync)
    (post : HttpRequest → Except Err Json)
    (query_vectors : List Item) (top_k : Nat) : BatchQueriesResult :=
  match buildSearches top_k query_vectors with
  | Except.error e => { result := Except.error e, requests := [], client := c }
  | Except.ok searches =>
    let req : HttpRequest :=
      { method := "POST"
        url := c.base_url ++ "/collections/" ++ c.collection_name ++ "/points/search/batch"
        headers := c.headers
        body := some (Json.obj [("searches", Json.arr searches)]) }
    match post req with
    | Except.error e => { result := Except.error e, requests := [req], client := c }
    | Except.ok results =>
      match pySubscript results "result" with
      | Except.error e => { result := Except.error e, requests := [req], client := c }
      | Except.ok (Json.arr rs) =>
        { result := Except.ok (batchZip query_vectors rs), requests := [req], client := c }
      | Except.ok _ => { result := Except.error Err.typeError, requests := [req], client := c }

/-! ### Theorems for create_collection, dense_search and batch_queries -/

/-- C4: createCollection is idempotent at the caller interface: a tolerated
response whose body status reports "Wrong input: Collection already exists"
completes without raising (only the warning flag is set), while a transport
failure at request time, an unexpected non-2xx status, or a malformed
(non-JSON) body raises. -/
theorem create_collection_idempotent (c : QdrantClientAsync)
    (put : HttpRequest → Except Err HttpResponse) :
    (∀ resp s rest, put (createCollectionRequest c) = Except.ok resp →
        resp.status < 400 →
        resp.jsonBody = Except.ok (Json.obj (("status", Json.str s) :: rest)) →
        pyStartsWith s "Wrong input: Collection" = true →
        (create_collection c put).result = Except.ok ()
          ∧ (create_collection c put).warned = true)
    ∧ (∀ e, put (createCollectionRequest c) = Except.error e →
        (create_collection c put).result = Except.error e)
    ∧ (∀ resp, put (createCollectionRequest c) = Except.ok resp →
        400 ≤ resp.status →
        (create_collection c put).result
          = Except.error (Err.clientResponseError resp.status))
    ∧ (∀ resp e, put (createCollectionRequest c) = Except.ok resp →
        resp.status < 400 → resp.jsonBody = Except.error e →
        (create_collection c put).result = Except.error e) := by
  refine ⟨?_, ?_, ?_, ?_⟩
  · intro resp s rest hput hst hbody hpre
    have hns : ¬ 400 ≤ resp.status := by omega
    constructor <;>
      simp [create_collection, hput, createCollectionCheck, raiseForStatus, hns,
        hbody, pySubscript, lookupField, hpre]
  · intro e hput
    simp [create_collection, hput]
  · intro resp hput hst
    simp [create_collection, hput, createCollectionCheck, raiseForStatus, hst]
  · intro resp e hput hst hbody
    have hns : ¬ 400 ≤ resp.status := by omega
    simp [create_collection, hput, createCollectionCheck, raiseForStatus, hns, hbody]

/-- A store that reports the collection already exists inside a tolerated
response body. -/
def alreadyExistsPut : HttpRequest → Except Err HttpResponse :=
  fun _ => Except.ok
    { status := 200
      jsonBody := Except.ok
        (Json.obj [("status", Json.str "Wrong input: Collection already exists")]) }

set_option maxRecDepth 8192 in
/-- C4 witness: against the already-exists store, create_collection completes
without raising and the warning flag is set. -/
theorem create_collection_idempotent_witness :
    (create_collection testClient alreadyExistsPut).result = Except.ok ()
    ∧ (create_collection testClient alreadyExistsPut).warned = true :=
  (create_collection_idempotent testClient alreadyExistsPut).1
    { status := 200
      jsonBody := Except.ok
        (Json.obj [("status", Json.str "Wrong input: Collection already exists")]) }
    "Wrong input: Collection already exists" [] rfl (by decide) rfl (by decide)

/-- A transport delivering a non-2xx response whose body is still valid JSON. -/
def badPost : HttpRequest → Except Err HttpResponse :=
  fun _ => Except.ok
    { status := 500, jsonBody := Except.ok (Json.obj [("status", Json.str "error")]) }

/-- C8 counterexample: against a response with HTTP status 500 carrying a JSON
body, dense_search returns the body as a normal result instead of propagating
an error, because the source performs no status check — contradicting the
claim that any unexpected non-2xx status fails the call. -/
theorem dense_search_non2xx_counterexample :
    (dense_search testClient badPost [(1 : Rat)] 5).result
      = Except.ok (Json.obj [("status", Json.str "error")]) := rfl

/-- C8 (amended): denseSearch applies no retry policy and makes exactly one
underlying HTTP request per call; an error raised by the request itself
(timeout, connection failure) or by JSON parsing of the body propagates
immediately to the caller, but no HTTP status check is performed, so the JSON
body of a non-2xx response is returned as a normal result. -/
theorem dense_search_no_retry (c : QdrantClientAsync)
    (post : HttpRequest → Except Err HttpResponse)
    (v : List Rat) (top_k : Nat) :
    (dense_search c post v top_k).requests = [denseSearchRequest c v top_k]
    ∧ (∀ e, post (denseSearchRequest c v top_k) = Except.error e →
        (dense_search c post v top_k).result = Except.error e)
    ∧ (∀ resp e, post (denseSearchRequest c v top_k) = Except.ok resp →
        resp.jsonBody = Except.error e →
        (dense_search c post v top_k).result = Except.error e)
    ∧ (∀ resp j, post (denseSearchRequest c v top_k) = Except.ok resp →
        resp.jsonBody = Except.ok j →
        (dense_search c post v top_k).result = Except.ok j) := by
  refine ⟨?_, ?_, ?_, ?_⟩
  · rcases h : post (denseSearchRequest c v top_k) with e | resp
    · simp [dense_search, h]
    · rcases hb : resp.jsonBody with e | j <;> simp [dense_search, h, hb]
  · intro e hpost
    simp [dense_search, hpost]
  · intro resp e hpost hbody
    simp [dense_search, hpost, hbody]
  · intro resp j hpost hbody
    simp [dense_search, hpost, hbody]

/-- C8 (amended) witness: one request is issued, and the JSON body of the
non-2xx response is returned to the caller. -/
theorem dense_search_no_retry_witness :
    (dense_search testClient badPost [(1 : Rat)] 5).requests
      = [denseSearchRequest testClient [(1 : Rat)] 5]
    ∧ (dense_search testClient badPost [(1 : Rat)] 5).result
        = Except.ok (Json.obj [("status", Json.str "error")]) :=
  ⟨(dense_search_no_retry testClient badPost [(1 : Rat)] 5).1,
   (dense_search_no_retry testClient badPost [(1 : Rat)] 5).2.2.2
      { status := 500, jsonBody := Except.ok (Json.obj [("status", Json.str "error")]) }
      (Json.obj [("status", Json.str "error")]) rfl rfl⟩

theorem buildSearches_isOk (top_k : Nat) (qvs : List Item)
    (h : ∀ it ∈ qvs, (lookupField it "vector").isSome = true) :
    ∃ s, buildSearches top_k qvs = Except.ok s := by
  induction qvs with
  | nil => exact ⟨[], rfl⟩
  | cons item rest ih =>
    obtain ⟨v, hv⟩ := Option.isSome_iff_exists.mp (h item (by simp))
    obtain ⟨s, hs⟩ := ih (fun it hit => h it (by simp [hit]))
    refine ⟨searchEntry top_k v :: s, ?_⟩
    simp [buildSearches, hv, hs]

theorem batchZip_getElem (qvs : List Item) (rs : List Json) (i : Nat) :
    (batchZip qvs rs)[i]? = Option.bind qvs[i]? (fun item =>
      Option.map (fun r => BatchQueryItemResult.mk (lookupField item "query") r) rs[i]?) := by
  induction qvs generalizing rs i with
  | nil => simp [batchZip]
  | cons a qs ih =>
    cases rs with
    | nil => simp [batchZip]
    | cons r rs2 =>
      cases i with
      | zero => simp [batchZip]
      | succ n => simpa [batchZip] using ih rs2 n

/-- C5: batchQueries pairs the server's result sublists back with the inputs in
order: when every input dict has a vector and the server answers with a result
list of the same length, the output is the in-order zip, its length matches the
input, and the i-th output carries the i-th input's optional query label and
the server's i-th result sublist; in particular an empty input yields []. -/
theorem batch_queries_pairing (c : QdrantClientAsync)
    (post : HttpRequest → Except Err Json)
    (qvs : List Item) (top_k : Nat) (rs : List Json) (rest : List (String × Json))
    (hvec : ∀ it ∈ qvs, (lookupField it "vector").isSome = true)
    (hpost : ∀ req, post req = Except.ok (Json.obj (("result", Json.arr rs) :: rest)))
    (hlen : rs.length = qvs.length) :
    (batch_queries c post qvs top_k).result = Except.ok (batchZip qvs rs)
    ∧ (batchZip qvs rs).length = qvs.length
    ∧ ∀ i : Nat, (batchZip qvs rs)[i]? = Option.bind qvs[i]? (fun item =>
        Option.map (fun r => BatchQueryItemResult.mk (lookupField item "query") r)
          rs[i]?) := by
  obtain ⟨s, hs⟩ := buildSearches_isOk top_k qvs hvec
  refine ⟨?_, ?_, fun i => batchZip_getElem qvs rs i⟩
  · simp [batch_queries, hs, hpost, pySubscript, lookupField]
  · simp [batchZip]
    omega

/-- A server answering the empty batch search with an empty result list. -/
def emptyBatchPost : HttpRequest → Except Err Json :=
  fun _ => Except.ok (Json.obj [("result", Json.arr []), ("status", Json.str "ok")])

/-- The single query dict of the spec's example, labelled "q1". -/
def q1Entry : Item :=
  [("vector", Json.arr [Json.num (1/10), Json.num (2/10), Json.num (3/10)]),
   ("query", Json.str "q1")]

/-- The server's first result sublist for the single-query example. -/
def q1Results : Json :=
  Json.arr [Json.obj [("id", Json.str "point1"), ("score", Json.num (95/100))]]

/-- A server answering a batch search with exactly one result sublist. -/
def oneBatchPost : HttpRequest → Except Err Json :=
  fun _ => Except.ok (Json.obj [("result", Json.arr [q1Results]), ("status", Json.str "ok")])

/-- C5 witness: batch_queries on the empty input returns [] without error, and
on the single "q1" query returns one element carrying the label "q1" and the
server's first result sublist. -/
theorem batch_queries_pairing_witness :
    (batch_queries testClient emptyBatchPost [] 5).result = Except.ok []
    ∧ (batch_queries testClient oneBatchPost [q1Entry] 3).result
        = Except.ok [BatchQueryItemResult.mk (some (Json.str "q1")) q1Results] :=
  ⟨(batch_queries_pairing testClient emptyBatchPost [] 5 []
      [("status", Json.str "ok")] (by simp) (fun _ => rfl) rfl).1,
   (batch_queries_pairing testClient oneBatchPost [q1Entry] 3 [q1Results]
      [("status", Json.str "ok")] (by decide) (fun _ => rfl) rfl).1⟩

/-! ### upload_documents: the batched upload loop -/

/-- The batch slices visited by `for i in range(0, len(items), batch_size)` with
`batch_items = items_list[i : i + batch_size]`, for batch size `bsPred + 1`. -/
def sliceBatches {α : Type} (bsPred : Nat) : List α → List (List α)
  | [] => []
  | x :: xs =>
    ((x :: xs).take (bsPred + 1)) :: sliceBatches bsPred ((x :: xs).drop (bsPred + 1))
termination_by l => l.length
decreasing_by simp; omega

/-- The 1-based batch numbers `batch_num = (i // batch_size) + 1` logged for
`n` consecutive batches starting at 0-based batch index `start`. -/
def batchNums (start n : Nat) : List Nat := (List.range n).map (fun j => start + 1 + j)

/-- `QdrantClientAsync._verify_batch`: GET the point by id,
`raise_for_status()`, `response.json()`; every except branch re-raises. -/
def _verify_batch (fetch : Except Err HttpResponse) : Except Err Json :=
  match fetch with
  | Except.error e => Except.error e
  | Except.ok resp =>
    match raiseForStatus resp with
    | Except.error e => Except.error e
    | Except.ok _ => resp.jsonBody

/-- The comprehension `[self._verify_points(item=doc) for doc in batch_items]`:
validates left to right, raising at the first invalid item; also returns the
number of `_verify_points` calls made. -/
def validateBatch (c : QdrantClientAsync) : List Item → Except Err (List Item) × Nat
  | [] => (Except.ok [], 0)
  | doc :: rest =>
    match _verify_points c doc with
    | Except.error e => (Except.error e, 1)
    | Except.ok p =>
      match validateBatch c rest with
      | (Except.error e, n) => (Except.error e, n + 1)
      | (Except.ok ps, n) => (Except.ok (p :: ps), n + 1)

/-- Transport oracle for one `upload_documents` call: `putPoints b a` is the
outcome of attempt `a` (1-based) of the points PUT plus `json()` for batch `b`
(0-based); `getPoint idv` is the outcome of the verification GET for point id
`idv`. -/
structure UploadEnv where
  putPoints : Nat → Nat → Except Err Json
  getPoint : Json → Except Err HttpResponse

/-- Observable trace of an `upload_documents` call: the outcome, the points
lists passed to `add_points_with_retry` in order, the batches the server
accepted, the batch numbers that logged a soft status warning, the batch
numbers whose first-point verification logged a warning, and the number of
`_verify_points` calls made. -/
structure UploadTrace where
  result : Except Err Unit
  uploadCalls : List (List Item)
  committed : List (List Item)
  statusWarnings : List Nat
  verifyWarnings : List Nat
  validationCalls : Nat

/-- The body of the `for i in iter_range_progressbar` loop of
`upload_documents`, processing the remaining items with the current 0-based
batch index: validate the batch, upload it with retry, soft-check the response
status, then fetch the batch's first point by id and soft-check the lookup
result; any exception raised inside the loop propagates. -/
def uploadLoop (c : QdrantClientAsync) (env : UploadEnv) (bsPred : Nat)
    (items : List Item) (batchIdx : Nat) : UploadTrace :=
  match items with
  | [] =>
    { result := Except.ok (), uploadCalls := [], committed := [],
      statusWarnings := [], verifyWarnings := [], validationCalls := 0 }
  | item :: restItems =>
    let batchItems := (item :: restItems).take (bsPred + 1)
    let batchNum := batchIdx + 1
    match validateBatch c batchItems with
    | (Except.error e, vcalls) =>
      { result := Except.error e, uploadCalls := [], committed := [],
        statusWarnings := [], verifyWarnings := [], validationCalls := vcalls }
    | (Except.ok points, vcalls) =>
      match (add_points_with_retry (env.putPoints batchIdx)).result with
      | Except.error e =>
        { result := Except.error e, uploadCalls := [points], committed := [],
          statusWarnings := [], verifyWarnings := [], validationCalls := vcalls }
      | Except.ok response =>
        match pyDictGet response "status" with
        | Except.error e =>
          { result := Except.error e, uploadCalls := [points], committed := [points],
            statusWarnings := [], verifyWarnings := [], validationCalls := vcalls }
        | Except.ok st =>
          let warnList := if statusIsOk st then ([] : List Nat) else [batchNum]
          match points with
          | [] =>
            { result := Except.error Err.indexError, uploadCalls := [[]],
              committed := [[]], statusWarnings := warnList, verifyWarnings := [],
              validationCalls := vcalls }
          | p0 :: prest =>
            match lookupField p0 "id" with
            | none =>
              { result := Except.error (Err.keyError "id"),
                uploadCalls := [p0 :: prest], committed := [p0 :: prest],
                statusWarnings := warnList, verifyWarnings := [],
                validationCalls := vcalls }
            | some idv =>
              match _verify_batch (env.getPoint idv) with
              | Except.error e =>
                { result := Except.error e, uploadCalls := [p0 :: prest],
                  committed := [p0 :: prest], statusWarnings := warnList,
                  verifyWarnings := [], validationCalls := vcalls }
              | Except.ok vjson =>
                match pyDictGet vjson "result" with
                | Except.error e =>
                  { result := Except.error e, uploadCalls := [p0 :: prest],
                    committed := [p0 :: prest], statusWarnings := warnList,
                    verifyWarnings := [], validationCalls := vcalls }
                | Except.ok resOpt =>
                  let rest :=
                    uploadLoop c env bsPred ((item :: restItems).drop (bsPred + 1))
                      (batchIdx + 1)
                  { result := rest.result,
                    uploadCalls := (p0 :: prest) :: rest.uploadCalls,
                    committed := (p0 :: prest) :: rest.committed,
                    statusWarnings := warnList ++ rest.statusWarnings,
                    verifyWarnings :=
                      (if pyTruthyOpt resOpt then ([] : List Nat) else [batchNum])
                        ++ rest.verifyWarnings,
                    validationCalls := vcalls + rest.validationCalls }
termination_by items.length
decreasing_by simp; omega

structure UploadResult extends UploadTrace where
  client : QdrantClientAsync

/-- `QdrantClientAsync.upload_documents`: materializes `items`, then builds
`range(0, len(items_list), batch_size)` — Python raises
`ValueError: range() arg 3 must not be zero` when `batch_size` is 0, before
any validation or network call — and runs the batch loop. -/
def upload_documents (c : QdrantClientAsync) (env : UploadEnv)
    (items : List Item) (batch_size : Nat) : UploadResult :=
  match batch_size with
  | 0 =>
    { result := Except.error Err.valueError, uploadCalls := [], committed := [],
      statusWarnings := [], verifyWarnings := [], validationCalls := 0, client := c }
  | bsPred + 1 => { toUploadTrace := uploadLoop c env bsPred items 0, client := c }

/-! ### Pure lemmas about batch slicing -/

theorem ceilDiv_step (m bsPred : Nat) (hm : 1 ≤ m) :
    (m + bsPred) / (bsPred + 1) = ((m - (bsPred + 1)) + bsPred) / (bsPred + 1) + 1 := by
  rcases Nat.lt_or_ge m (bsPred + 1) with h | h
  · have h1 : m - (bsPred + 1) = 0 := by omega
    have h2 : bsPred / (bsPred + 1) = 0 := Nat.div_eq_of_lt (by omega)
    have h3 : m + bsPred = (m - 1) + (bsPred + 1) := by omega
    have h4 : (m - 1) / (bsPred + 1) = 0 := Nat.div_eq_of_lt (by omega)
    rw [h1, Nat.zero_add, h2, h3, Nat.add_div_right _ (by omega), h4]
  · have h3 : m + bsPred = (m - (bsPred + 1) + bsPred) + (bsPred + 1) := by omega
    rw [h3, Nat.add_div_right _ (by omega)]

theorem sliceBatches_flatten_aux {α : Type} (bsPred : Nat) :
    ∀ (n : Nat) (l : List α), l.length ≤ n → (sliceBatches bsPred l).flatten = l := by
  intro n
  induction n with
  | zero =>
    intro l hl
    have h : l = [] := List.eq_nil_of_length_eq_zero (Nat.le_zero.mp hl)
    subst h
    simp [sliceBatches]
  | succ n ih =>
    intro l hl
    match l with
    | [] => simp [sliceBatches]
    | x :: xs =>
      rw [sliceBatches]
      have hrec : ((x :: xs).drop (bsPred + 1)).length ≤ n := by
        simp at hl ⊢
        omega
      rw [List.flatten_cons, ih _ hrec, List.take_append_drop]

theorem sliceBatches_flatten {α : Type} (bsPred : Nat) (l : List α) :
    (sliceBatches bsPred l).flatten = l :=
  sliceBatches_flatten_aux bsPred l.length l le_rfl

theorem length_sliceBatches_aux {α : Type} (bsPred : Nat) :
    ∀ (n : Nat) (l : List α), l.length ≤ n →
      (sliceBatches bsPred l).length = (l.length + bsPred) / (bsPred + 1) := by
  intro n
  induction n with
  | zero =>
    intro l hl
    have h : l = [] := List.eq_nil_of_length_eq_zero (Nat.le_zero.mp hl)
    subst h
    simp [sliceBatches, Nat.div_eq_of_lt]
  | succ n ih =>
    intro l hl
    match l with
    | [] => simp [sliceBatches, Nat.div_eq_of_lt]
    | x :: xs =>
      rw [sliceBatches]
      have hrec : ((x :: xs).drop (bsPred + 1)).length ≤ n := by
        simp at hl ⊢
        omega
      rw [List.length_cons, ih _ hrec,
        ceilDiv_step (x :: xs).length bsPred (by simp)]
      simp

theorem length_sliceBatches {α : Type} (bsPred : Nat) (l : List α) :
    (sliceBatches bsPred l).length = (l.length + bsPred) / (bsPred + 1) :=
  length_sliceBatches_aux bsPred l.length l le_rfl

theorem sliceBatches_sizes_aux {α : Type} (bsPred : Nat) :
    ∀ (n : Nat) (l : List α), l.length ≤ n →
      ∀ b ∈ sliceBatches bsPred l, b.length ≤ bsPred + 1 ∧ b ≠ [] := by
  intro n
  induction n with
  | zero =>
    intro l hl
    have h : l = [] := List.eq_nil_of_length_eq_zero (Nat.le_zero.mp hl)
    subst h
    simp [sliceBatches]
  | succ n ih =>
    intro l hl
    match l with
    | [] => simp [sliceBatches]
    | x :: xs =>
      rw [sliceBatches]
      intro b hb
      rcases List.mem_cons.mp hb with h | h
      · subst h
        constructor
        · simp
        · simp [List.take_succ_cons]
      · have hrec : ((x :: xs).drop (bsPred + 1)).length ≤ n := by
          simp at hl ⊢
          omega
        exact ih _ hrec b h

theorem sliceBatches_sizes {α : Type} (bsPred : Nat) (l : List α) :
    ∀ b ∈ sliceBatches bsPred l, b.length ≤ bsPred + 1 ∧ b ≠ [] :=
  sliceBatches_sizes_aux bsPred l.length l le_rfl

theorem batchNums_zero (start : Nat) : batchNums start 0 = [] := rfl

theorem batchNums_succ (start n : Nat) :
    batchNums start (n + 1) = (start + 1) :: batchNums (start + 1) n := by
  simp only [batchNums, List.range_succ_eq_map, List.map_cons, List.map_map]
  refine congrArg₂ _ (by omega) ?_
  apply List.map_congr_left
  intro j _
  simp [Function.comp]
  omega

/-! ### Behavior lemmas for validation and retry -/

theorem validateBatch_ok (c : QdrantClientAsync) (l : List Item)
    (hv : ∀ it ∈ l, c.data_model it = true) :
    validateBatch c l = (Except.ok l, l.length) := by
  induction l with
  | nil => rfl
  | cons doc rest ih =>
    have h1 : c.data_model doc = true := hv doc (by simp)
    have h2 := ih (fun it hit => hv it (by simp [hit]))
    simp [validateBatch, _verify_points, h1, h2]

theorem add_points_with_retry_firstOk (call : Nat → Except Err Json) (j : Json)
    (h : call 1 = Except.ok j) :
    add_points_with_retry call = { result := Except.ok j, calls := 1, waits := [] } := by
  simp [add_points_with_retry, tenacityRetry, h]

theorem add_points_with_retry_allFail (call : Nat → Except Err Json) (e : Err)
    (h : ∀ a, call a = Except.error e) :
    (add_points_with_retry call).result = Except.error (Err.retryError e) := by
  simp [add_points_with_retry, tenacityRetry, h 1, h 2, h 3]

/-- Master lemma: when every batch PUT succeeds with the same JSON body, every
verification GET succeeds with the same JSON body and a non-error status, and
every item validates and carries an id, the upload loop visits every batch in
order, commits all of them, and logs soft warnings uniformly according to the
response contents. -/
theorem uploadLoop_uniform (c : QdrantClientAsync) (env : UploadEnv) (bsPred : Nat)
    (ufields gfields : List (String × Json)) (gstatus : Nat)
    (hput : ∀ b a, env.putPoints b a = Except.ok (Json.obj ufields))
    (hget : ∀ v, env.getPoint v
        = Except.ok { status := gstatus, jsonBody := Except.ok (Json.obj gfields) })
    (hgst : gstatus < 400) :
    ∀ (n : Nat) (items : List Item) (idx : Nat), items.length ≤ n →
      (∀ it ∈ items, c.data_model it = true) →
      (∀ it ∈ items, (lookupField it "id").isSome = true) →
      uploadLoop c env bsPred items idx =
        { result := Except.ok ()
          uploadCalls := sliceBatches bsPred items
          committed := sliceBatches bsPred items
          statusWarnings :=
            if statusIsOk (lookupField ufields "status") then []
            else batchNums idx (sliceBatches bsPred items).length
          verifyWarnings :=
            if pyTruthyOpt (lookupField gfields "result") then []
            else batchNums idx (sliceBatches bsPred items).length
          validationCalls := items.length } := by
  intro n
  induction n with
  | zero =>
    intro items idx hl _ _
    have h : items = [] := List.eq_nil_of_length_eq_zero (Nat.le_zero.mp hl)
    subst h
    simp [uploadLoop, sliceBatches, batchNums]
  | succ n ih =>
    intro items idx hl hv hid
    match items with
    | [] => simp [uploadLoop, sliceBatches, batchNums]
    | item :: restItems =>
      have hvB : ∀ it ∈ (item :: restItems).take (bsPred + 1), c.data_model it = true :=
        fun it hit => hv it (List.take_subset _ _ hit)
      have hvalid := validateBatch_ok c _ hvB
      have hap := add_points_with_retry_firstOk (env.putPoints idx) _ (hput idx 1)
      obtain ⟨idv, hidv⟩ := Option.isSome_iff_exists.mp (hid item (by simp))
      have hvb : _verify_batch (env.getPoint idv) = Except.ok (Json.obj gfields) := by
        simp [_verify_batch, hget, raiseForStatus, Nat.not_le.mpr hgst]
      have hlen2 : (restItems.drop bsPred).length ≤ n := by
        simp at hl ⊢
        omega
      have hrec := ih (restItems.drop bsPred) (idx + 1) hlen2
        (fun it hit => hv it (List.mem_cons_of_mem _ (List.drop_subset _ _ hit)))
        (fun it hit => hid it (List.mem_cons_of_mem _ (List.drop_subset _ _ hit)))
      rw [uploadLoop, sliceBatches]
      simp only [List.take_succ_cons, List.drop_succ_cons] at hvalid hrec ⊢
      rw [hvalid]
      simp only [hap, pyDictGet, hidv, hvb, hrec]
      cases hst : statusIsOk (lookupField ufields "status") <;>
        cases hres : pyTruthyOpt (lookupField gfields "result") <;>
          simp [batchNums_succ, List.length_take, List.length_drop, hst, hres] <;>
            omega

/-- Master lemma: when the PUTs of the first `k` batches starting at `idx`
succeed uniformly but every attempt for batch `idx + k` raises `e`, the loop
fails with the retry-exhausted error, has invoked `add_points_with_retry` for
exactly the first `k + 1` batches, and has committed exactly the first `k`. -/
theorem uploadLoop_failAt (c : QdrantClientAsync) (env : UploadEnv) (bsPred : Nat)
    (ufields gfields : List (String × Json)) (gstatus : Nat) (e : Err)
    (hget : ∀ v, env.getPoint v
        = Except.ok { status := gstatus, jsonBody := Except.ok (Json.obj gfields) })
    (hgst : gstatus < 400) :
    ∀ (n : Nat) (items : List Item) (idx k : Nat), items.length ≤ n →
      (∀ it ∈ items, c.data_model it = true) →
      (∀ it ∈ items, (lookupField it "id").isSome = true) →
      (∀ b, b < idx + k → ∀ a, env.putPoints b a = Except.ok (Json.obj ufields)) →
      (∀ a, env.putPoints (idx + k) a = Except.error e) →
      k < (sliceBatches bsPred items).length →
      (uploadLoop c env bsPred items idx).result = Except.error (Err.retryError e)
      ∧ (uploadLoop c env bsPred items idx).uploadCalls
          = (sliceBatches bsPred items).take (k + 1)
      ∧ (uploadLoop c env bsPred items idx).committed
          = (sliceBatches bsPred items).take k := by
  intro n
  induction n with
  | zero =>
    intro items idx k hl _ _ _ _ hk
    have h : items = [] := List.eq_nil_of_length_eq_zero (Nat.le_zero.mp hl)
    subst h
    simp [sliceBatches] at hk
  | succ n ih =>
    intro items idx k hl hv hid hputOk hputFail hk
    match items with
    | [] => simp [sliceBatches] at hk
    | item :: restItems =>
      have hvB : ∀ it ∈ (item :: restItems).take (bsPred + 1), c.data_model it = true :=
        fun it hit => hv it (List.take_subset _ _ hit)
      have hvalid := validateBatch_ok c _ hvB
      obtain ⟨idv, hidv⟩ := Option.isSome_iff_exists.mp (hid item (by simp))
      cases k with
      | zero =>
        have hfail : (add_points_with_retry (env.putPoints idx)).result
            = Except.error (Err.retryError e) :=
          add_points_with_retry_allFail _ e (fun a => by simpa using hputFail a)
        rw [uploadLoop, sliceBatches]
        simp only [List.take_succ_cons, List.drop_succ_cons] at hvalid ⊢
        rw [hvalid]
        simp [hfail]
      | succ k =>
        have hvb : _verify_batch (env.getPoint idv) = Except.ok (Json.obj gfields) := by
          simp [_verify_batch, hget, raiseForStatus, Nat.not_le.mpr hgst]
        have hap := add_points_with_retry_firstOk (env.putPoints idx) _
          (hputOk idx (by omega) 1)
        have hlen2 : (restItems.drop bsPred).length ≤ n := by
          simp at hl ⊢
          omega
        have hk2 : k < (sliceBatches bsPred (restItems.drop bsPred)).length := by
          rw [sliceBatches] at hk
          simp only [List.drop_succ_cons, List.length_cons] at hk
          omega
        have hputOk2 : ∀ b, b < (idx + 1) + k → ∀ a,
            env.putPoints b a = Except.ok (Json.obj ufields) :=
          fun b hb a => hputOk b (by omega) a
        have hputFail2 : ∀ a, env.putPoints ((idx + 1) + k) a = Except.error e :=
          fun a => by
            have h := hputFail a
            have heq : idx + (k + 1) = (idx + 1) + k := by omega
            rw [heq] at h
            exact h
        have hrec := ih (restItems.drop bsPred) (idx + 1) k hlen2
          (fun it hit => hv it (List.mem_cons_of_mem _ (List.drop_subset _ _ hit)))
          (fun it hit => hid it (List.mem_cons_of_mem _ (List.drop_subset _ _ hit)))
          hputOk2 hputFail2 hk2
        rw [uploadLoop, sliceBatches]
        simp only [List.take_succ_cons, List.drop_succ_cons] at hvalid ⊢
        rw [hvalid]
        simp only [hap, pyDictGet, hidv, hvb]
        simp [hrec.1, hrec.2.1, hrec.2.2]

/-! ### Claim theorems about upload_documents -/

/-- C2: uploadDocuments partitions items into exactly
ceil(len(items)/batchSize) consecutive batches (the last possibly shorter) and
makes exactly that many addPointsWithRetry calls, the concatenation of the
batches in order being the original items, for every positive batchSize and
every successful run. -/
theorem upload_documents_partitions (c : QdrantClientAsync) (env : UploadEnv)
    (items : List Item) (batch_size : Nat)
    (ufields gfields : List (String × Json)) (gstatus : Nat)
    (hbs : 1 ≤ batch_size)
    (hv : ∀ it ∈ items, c.data_model it = true)
    (hid : ∀ it ∈ items, (lookupField it "id").isSome = true)
    (hput : ∀ b a, env.putPoints b a = Except.ok (Json.obj ufields))
    (hget : ∀ v, env.getPoint v
        = Except.ok { status := gstatus, jsonBody := Except.ok (Json.obj gfields) })
    (hgst : gstatus < 400) :
    (upload_documents c env items batch_size).result = Except.ok ()
    ∧ (upload_documents c env items batch_size).uploadCalls
        = sliceBatches (batch_size - 1) items
    ∧ (upload_documents c env items batch_size).uploadCalls.length
        = (items.length + batch_size - 1) / batch_size
    ∧ (upload_documents c env items batch_size).uploadCalls.flatten = items
    ∧ (∀ b ∈ (upload_documents c env items batch_size).uploadCalls,
        b.length ≤ batch_size ∧ b ≠ []) := by
  obtain ⟨bsPred, rfl⟩ : ∃ p, batch_size = p + 1 := ⟨batch_size - 1, by omega⟩
  have h := uploadLoop_uniform c env bsPred ufields gfields gstatus hput hget hgst
    items.length items 0 le_rfl hv hid
  have hnum : items.length + (bsPred + 1) - 1 = items.length + bsPred := by omega
  refine ⟨?_, ?_, ?_, ?_, ?_⟩
  · simp [upload_documents, h]
  · simp [upload_documents, h]
  · simp [upload_documents, h, length_sliceBatches, hnum]
  · simp [upload_documents, h, sliceBatches_flatten]
  · intro b hb
    simp [upload_documents, h] at hb
    exact sliceBatches_sizes bsPred items b hb

/-- The upload responses and verification responses used by successful-run
witnesses. -/
def okUploadEnv : UploadEnv :=
  { putPoints := fun _ _ => Except.ok
      (Json.obj [("result", Json.obj [("operation_id", Json.num 1)]),
                 ("status", Json.str "ok")])
    getPoint := fun _ => Except.ok
      { status := 200
        jsonBody := Except.ok
          (Json.obj [("result", Json.obj [("id", Json.str "doc0")]),
                     ("status", Json.str "ok")]) } }

/-- A well-formed document with the given id, as the upload tests build them. -/
def mkDoc (s : String) : Item :=
  [("id", Json.str s),
   ("vector", Json.obj [("dense", Json.arr [Json.num 1, Json.num 2, Json.num 3])]),
   ("payload", Json.obj [("content", Json.str s)])]

/-- The 5-document input of the batch-processing test. -/
def fiveDocs : List Item :=
  [mkDoc "doc0", mkDoc "doc1", mkDoc "doc2", mkDoc "doc3", mkDoc "doc4"]

set_option maxRecDepth 8192 in
/-- C2 witness: 5 items with batchSize 2 make exactly 3 addPointsWithRetry
calls, succeed, and the batches concatenate back to the input. -/
theorem upload_documents_partitions_witness :
    (upload_documents testClient okUploadEnv fiveDocs 2).result = Except.ok ()
    ∧ (upload_documents testClient okUploadEnv fiveDocs 2).uploadCalls.length = 3
    ∧ (upload_documents testClient okUploadEnv fiveDocs 2).uploadCalls.flatten
        = fiveDocs := by
  have h := upload_documents_partitions testClient okUploadEnv fiveDocs 2
    [("result", Json.obj [("operation_id", Json.num 1)]), ("status", Json.str "ok")]
    [("result", Json.obj [("id", Json.str "doc0")]), ("status", Json.str "ok")] 200
    (by omega) (by decide) (by decide) (fun _ _ => rfl) (fun _ => rfl) (by omega)
  refine ⟨h.1, ?_, h.2.2.2.1⟩
  rw [h.2.2.1]
  decide

/-- C1: if batch k's upload exhausts all 3 retry attempts, uploadDocuments
raises the retry-exhausted error wrapping that exception (tenacity re-raises
through RetryError), addPointsWithRetry has been invoked exactly for batches
0..k — never for any later batch — and exactly the batches before k remain
committed, with no rollback. -/
theorem upload_aborts_on_exhausted_retries (c : QdrantClientAsync) (env : UploadEnv)
    (items : List Item) (batch_size k : Nat) (e : Err)
    (ufields gfields : List (String × Json)) (gstatus : Nat)
    (hbs : 1 ≤ batch_size)
    (hv : ∀ it ∈ items, c.data_model it = true)
    (hid : ∀ it ∈ items, (lookupField it "id").isSome = true)
    (hputOk : ∀ b, b < k → ∀ a, env.putPoints b a = Except.ok (Json.obj ufields))
    (hputFail : ∀ a, env.putPoints k a = Except.error e)
    (hget : ∀ v, env.getPoint v
        = Except.ok { status := gstatus, jsonBody := Except.ok (Json.obj gfields) })
    (hgst : gstatus < 400)
    (hk : k < (items.length + batch_size - 1) / batch_size) :
    (upload_documents c env items batch_size).result
      = Except.error (Err.retryError e)
    ∧ (upload_documents c env items batch_size).uploadCalls
        = (sliceBatches (batch_size - 1) items).take (k + 1)
    ∧ (upload_documents c env items batch_size).committed
        = (sliceBatches (batch_size - 1) items).take k := by
  obtain ⟨bsPred, rfl⟩ : ∃ p, batch_size = p + 1 := ⟨batch_size - 1, by omega⟩
  have hnum : items.length + (bsPred + 1) - 1 = items.length + bsPred := by omega
  rw [hnum] at hk
  have hk2 : k < (sliceBatches bsPred items).length := by
    rw [length_sliceBatches]
    exact hk
  have h := uploadLoop_failAt c env bsPred ufields gfields gstatus e hget hgst
    items.length items 0 k le_rfl hv hid
    (fun b hb a => hputOk b (by omega) a)
    (fun a => by simpa using hputFail a) hk2
  exact ⟨h.1, h.2.1, h.2.2⟩

/-- A transport whose points PUT fails on every attempt of every batch. -/
def failEnv : UploadEnv :=
  { putPoints := fun _ _ => Except.error Err.connectionError
    getPoint := fun _ => Except.ok
      { status := 200
        jsonBody := Except.ok
          (Json.obj [("result", Json.obj [("id", Json.str "doc0")]),
                     ("status", Json.str "ok")]) } }

set_option maxRecDepth 8192 in
/-- C1 witness: when the first batch fails on all attempts, the call raises,
only the first batch's upload was ever invoked, and nothing is committed. -/
theorem upload_aborts_on_exhausted_retries_witness :
    (upload_documents testClient failEnv fiveDocs 2).result
      = Except.error (Err.retryError Err.connectionError)
    ∧ (upload_documents testClient failEnv fiveDocs 2).uploadCalls
        = [[mkDoc "doc0", mkDoc "doc1"]]
    ∧ (upload_documents testClient failEnv fiveDocs 2).committed = [] := by
  have h := upload_aborts_on_exhausted_retries testClient failEnv fiveDocs 2 0
    Err.connectionError
    [("result", Json.obj [("operation_id", Json.num 1)]), ("status", Json.str "ok")]
    [("result", Json.obj [("id", Json.str "doc0")]), ("status", Json.str "ok")] 200
    (by omega) (by decide) (by decide)
    (fun b hb a => absurd hb (Nat.not_lt_zero b))
    (fun a => rfl) (fun v => rfl) (by omega) (by decide)
  refine ⟨h.1, ?_, ?_⟩
  · rw [h.2.1]
    simp [sliceBatches, fiveDocs, mkDoc]
  · rw [h.2.2]
    simp

/-- C7: soft server anomalies never raise: when every batch upload returns a
2xx body whose status is not the success marker "ok" and every post-upload
first-point lookup returns a body with no truthy result, uploadDocuments
completes without raising, proceeds through every batch, and logs a status
warning and a verification warning for every batch number. -/
theorem upload_soft_anomalies_warn_only (c : QdrantClientAsync) (env : UploadEnv)
    (items : List Item) (batch_size : Nat)
    (ufields gfields : List (String × Json)) (gstatus : Nat)
    (hbs : 1 ≤ batch_size)
    (hv : ∀ it ∈ items, c.data_model it = true)
    (hid : ∀ it ∈ items, (lookupField it "id").isSome = true)
    (hput : ∀ b a, env.putPoints b a = Except.ok (Json.obj ufields))
    (hget : ∀ v, env.getPoint v
        = Except.ok { status := gstatus, jsonBody := Except.ok (Json.obj gfields) })
    (hgst : gstatus < 400)
    (hnotok : statusIsOk (lookupField ufields "status") = false)
    (hnores : pyTruthyOpt (lookupField gfields "result") = false) :
    (upload_documents c env items batch_size).result = Except.ok ()
    ∧ (upload_documents c env items batch_size).uploadCalls
        = sliceBatches (batch_size - 1) items
    ∧ (upload_documents c env items batch_size).statusWarnings
        = batchNums 0 (sliceBatches (batch_size - 1) items).length
    ∧ (upload_documents c env items batch_size).verifyWarnings
        = batchNums 0 (sliceBatches (batch_size - 1) items).length := by
  obtain ⟨bsPred, rfl⟩ : ∃ p, batch_size = p + 1 := ⟨batch_size - 1, by omega⟩
  have h := uploadLoop_uniform c env bsPred ufields gfields gstatus hput hget hgst
    items.length items 0 le_rfl hv hid
  refine ⟨?_, ?_, ?_, ?_⟩ <;> simp [upload_documents, h, hnotok, hnores]

/-- A transport whose upload responses carry a non-"ok" status and whose
verification lookups return a null result. -/
def softAnomalyEnv : UploadEnv :=
  { putPoints := fun _ _ => Except.ok (Json.obj [("status", Json.str "accepted")])
    getPoint := fun _ => Except.ok
      { status := 200
        jsonBody := Except.ok
          (Json.obj [("result", Json.null), ("status", Json.str "ok")]) } }

set_option maxRecDepth 8192 in
/-- C7 witness: with a non-"ok" upload status and an empty verification result
on all 3 batches, the upload completes and warns on batches 1, 2 and 3. -/
theorem upload_soft_anomalies_warn_only_witness :
    (upload_documents testClient softAnomalyEnv fiveDocs 2).result = Except.ok ()
    ∧ (upload_documents testClient softAnomalyEnv fiveDocs 2).statusWarnings
        = [1, 2, 3]
    ∧ (upload_documents testClient softAnomalyEnv fiveDocs 2).verifyWarnings
        = [1, 2, 3] := by
  have h := upload_soft_anomalies_warn_only testClient softAnomalyEnv fiveDocs 2
    [("status", Json.str "accepted")]
    [("result", Json.null), ("status", Json.str "ok")] 200
    (by omega) (by decide) (by decide) (fun _ _ => rfl) (fun _ => rfl) (by omega)
    (by decide) (by decide)
  have hlen : (sliceBatches 1 fiveDocs).length = 3 := by
    rw [length_sliceBatches]
    decide
  refine ⟨h.1, ?_, ?_⟩
  · rw [h.2.2.1, hlen]
    decide
  · rw [h.2.2.2, hlen]
    decide

/-- C10: calling uploadDocuments with batchSize 0 raises ValueError from the
`range(0, len(items), 0)` construction before any item is validated and before
any network request is issued, leaving the store untouched; with batchSize at
least 1 the call instead proceeds into the batch loop, so this error branch is
unreachable. -/
theorem upload_batch_size_zero_valueerror (c : QdrantClientAsync) (env : UploadEnv)
    (items : List Item) (_hne : items ≠ []) :
    (upload_documents c env items 0).result = Except.error Err.valueError
    ∧ (upload_documents c env items 0).uploadCalls = []
    ∧ (upload_documents c env items 0).committed = []
    ∧ (upload_documents c env items 0).validationCalls = 0
    ∧ ∀ batch_size, 1 ≤ batch_size →
        upload_documents c env items batch_size
          = { toUploadTrace := uploadLoop c env (batch_size - 1) items 0
              client := c } := by
  refine ⟨rfl, rfl, rfl, rfl, ?_⟩
  intro bs hbs
  obtain ⟨p, rfl⟩ : ∃ p, bs = p + 1 := ⟨bs - 1, by omega⟩
  simp [upload_documents]

/-- C10 witness: on a concrete non-empty input, batchSize 0 yields ValueError
with no upload calls, no committed batch, and no validation call. -/
theorem upload_batch_size_zero_valueerror_witness :
    (upload_documents testClient okUploadEnv [sampleEntry] 0).result
      = Except.error Err.valueError
    ∧ (upload_documents testClient okUploadEnv [sampleEntry] 0).uploadCalls = []
    ∧ (upload_documents testClient okUploadEnv [sampleEntry] 0).committed = []
    ∧ (upload_documents testClient okUploadEnv [sampleEntry] 0).validationCalls = 0 :=
  ⟨(upload_batch_size_zero_valueerror testClient okUploadEnv [sampleEntry]
      (List.cons_ne_nil sampleEntry [])).1,
   (upload_batch_size_zero_valueerror testClient okUploadEnv [sampleEntry]
      (List.cons_ne_nil sampleEntry [])).2.1,
   (upload_batch_size_zero_valueerror testClient okUploadEnv [sampleEntry]
      (List.cons_ne_nil sampleEntry [])).2.2.1,
   (upload_batch_size_zero_valueerror testClient okUploadEnv [sampleEntry]
      (List.cons_ne_nil sampleEntry [])).2.2.2.1⟩

/-- C9: every client operation leaves the client configuration unchanged:
whatever the transport does, the client value carried out of
create_collection, get_collection_info, upload_documents, verify_upload,
dense_search and batch_queries is the one passed in, mirroring the source
class which never assigns to its private fields after `__init__`. -/
theorem client_config_immutable (c : QdrantClientAsync)
    (put get post scrollPost : HttpRequest → Except Err HttpResponse)
    (jpost : HttpRequest → Except Err Json)
    (env : UploadEnv) (items : List Item) (batch_size : Nat)
    (v : List Rat) (top_k : Nat) (qvs : List Item) :
    (create_collection c put).client = c
    ∧ (get_collection_info c get).client = c
    ∧ (upload_documents c env items batch_size).client = c
    ∧ (verify_upload c get scrollPost).client = c
    ∧ (dense_search c post v top_k).client = c
    ∧ (batch_queries c jpost qvs top_k).client = c := by
  refine ⟨?_, ?_, ?_, ?_, ?_, ?_⟩
  · simp only [create_collection]
    split
    · rfl
    · split <;> rfl
  · simp only [get_collection_info]
    split
    · rfl
    · split
      · rfl
      · split <;> rfl
  · simp only [upload_documents]
    split <;> rfl
  · simp only [verify_upload]
    split
    · rfl
    · split
      · rfl
      · split
        · rfl
        · split
          · rfl
          · split <;> rfl
  · simp only [dense_search]
    split
    · rfl
    · split <;> rfl
  · simp only [batch_queries]
    split
    · rfl
    · split
      · rfl
      · split <;> rfl

end DocsIngestion
